import Mathlib

/-!
Verification of the Invoice-OCR Extraction-Confidence & Reconciliation Engine.

This file gives a shallow embedding of the parts of the repository that the
verified properties talk about:

* the field normalizer around the AI extraction call
  (backend `extract_invoice_data`, given in full in the migration guide);
* the manual sales-entry submission path (`ManualEntry` page,
  `calculateTotal` / `handleSalesSubmit`);
* the bank-statement upload extension gate
  (`BankReconciliation.handleUpload`);
* the receivables report status badge (`BankReconciliation` outstanding
  table);
* the invoice date formatter (`utils/dateFormat.js`);
* the mapping store, bulk mapping and GST validation flagger, whose backend
  implementation (`server.py`) is not part of the available sources and is
  therefore modelled from the specification where marked.

Machine numbers are modelled as rationals; JavaScript / Python strings as
Lean strings, with explicit character-list models of the string operations
the code uses.
-/

/-! ## Receivables report status badge (BankReconciliation.jsx) -/

/-- A row of the outstanding (receivables) report as rendered by the
frontend: the ledger numbers the status badge is computed from. -/
structure BuyerLedgerRow where
  total_sales : Rat
  total_received : Rat
  outstanding : Rat

/-- The status badge of a buyer row in the outstanding report, translated
from the JSX conditional: `outstanding <= 0` renders Cleared, otherwise
`total_received > 0` renders Partial, otherwise Pending. -/
def statusBadge (b : BuyerLedgerRow) : String :=
  if b.outstanding ≤ 0 then "Cleared"
  else if 0 < b.total_received then "Partial"
  else "Pending"

/-! ## Bank-statement upload extension gate (handleUpload) -/

/-- JavaScript `toLowerCase` on a single character (ASCII range, which is
all the code relies on: extensions are ASCII). -/
def jsLowerChar (c : Char) : Char :=
  if 65 ≤ c.toNat ∧ c.toNat ≤ 90 then Char.ofNat (c.toNat + 32) else c

/-- JavaScript `toLowerCase` on a string, as a character list map. -/
def lowerL (l : List Char) : List Char := l.map jsLowerChar

/-- Index of the last occurrence of a dot in a character list, mirroring
JavaScript `lastIndexOf('.')` (`none` encodes the JS result `-1`). -/
def lastDotIdx : List Char → Option Nat
  | [] => none
  | c :: t =>
    match lastDotIdx t with
    | some j => some (j + 1)
    | none => if c = '.' then some 0 else none

/-- The file-extension expression of `handleUpload`:
`file.name.toLowerCase().slice(file.name.lastIndexOf('.'))`.  When the name
has no dot, `lastIndexOf` is `-1` and `slice(-1)` keeps only the final
character (or nothing for an empty name). -/
def jsExtOfName (l : List Char) : List Char :=
  match lastDotIdx l with
  | some i => (lowerL l).drop i
  | none => (lowerL l).drop (l.length - 1)

/-- The accepted statement extensions, as listed in `handleUpload`. -/
def validTypesL : List (List Char) :=
  [".pdf".data, ".xlsx".data, ".xls".data, ".csv".data]

/-- Whether `handleUpload` lets the file through to the upload endpoint. -/
def bankUploadAccepts (name : String) : Bool :=
  decide (jsExtOfName name.data ∈ validTypesL)

/-- Outcome of the upload handler: either a user-visible rejection message
(no request is made) or the POST to the upload endpoint with the file. -/
inductive UploadOutcome where
  | rejected : String → UploadOutcome
  | uploadCall : String → UploadOutcome
deriving DecidableEq

/-- `handleUpload` from `BankReconciliation.jsx`: validates the extension
before any request; on failure shows an error toast and returns without
calling the endpoint. -/
def handleUpload (name : String) : UploadOutcome :=
  if bankUploadAccepts name then .uploadCall name
  else .rejected "Please upload a PDF, Excel (.xlsx, .xls) or CSV file"

/-- The filename extension in the sense of the specification: the suffix of
the name starting at the last dot, empty when the name has no dot.  This is
the spec-side definition the code's check is compared against. -/
def specExtension (l : List Char) : List Char :=
  match lastDotIdx l with
  | some i => l.drop i
  | none => []

theorem mem_validTypesL_length {x : List Char} (h : x ∈ validTypesL) :
    4 ≤ x.length := by
  simp only [validTypesL, List.mem_cons, List.not_mem_nil, or_false] at h
  rcases h with rfl | rfl | rfl | rfl <;> decide

theorem jsExt_eq_spec_mem (name : String) :
    (jsExtOfName name.data ∈ validTypesL) ↔
      (lowerL (specExtension name.data) ∈ validTypesL) := by
  cases h : lastDotIdx name.data with
  | some i =>
      simp [jsExtOfName, specExtension, h, lowerL, List.map_drop]
  | none =>
      constructor
      · intro hmem
        exfalso
        have hlen := mem_validTypesL_length hmem
        have hle : (jsExtOfName name.data).length ≤ 1 := by
          simp only [jsExtOfName, h, lowerL, List.length_drop,
            List.length_map]
          omega
        omega
      · intro hmem
        exfalso
        simp only [specExtension, h, lowerL, List.map_nil] at hmem
        exact absurd hmem (by decide)

/-- Claim C4: a bank-statement file whose lower-cased extension is not one
of .pdf, .xlsx, .xls, .csv is rejected with a user-visible error before any
upload/parser call; a file with one of those four extensions is passed
through to the upload endpoint. -/
theorem claim_C4_upload_extension_gate (name : String) :
    (lowerL (specExtension name.data) ∈ validTypesL →
      handleUpload name = .uploadCall name) ∧
    (lowerL (specExtension name.data) ∉ validTypesL →
      handleUpload name =
        .rejected "Please upload a PDF, Excel (.xlsx, .xls) or CSV file") := by
  constructor
  · intro hm
    have hb : bankUploadAccepts name = true := by
      simp only [bankUploadAccepts, decide_eq_true_eq]
      exact (jsExt_eq_spec_mem name).mpr hm
    simp [handleUpload, hb]
  · intro hm
    have hb : bankUploadAccepts name = false := by
      simp only [bankUploadAccepts, decide_eq_false_iff_not]
      exact fun hc => hm ((jsExt_eq_spec_mem name).mp hc)
    simp [handleUpload, hb]

/-- Witness for C4: a concrete `.PDF` file is passed through, a concrete
`.txt` file is rejected before any call. -/
theorem claim_C4_witness :
    (lowerL (specExtension "Statement.PDF".data) ∈ validTypesL ∧
      handleUpload "Statement.PDF" = .uploadCall "Statement.PDF") ∧
    (lowerL (specExtension "statement.txt".data) ∉ validTypesL ∧
      handleUpload "statement.txt" =
        .rejected "Please upload a PDF, Excel (.xlsx, .xls) or CSV file") :=
  ⟨⟨by decide, (claim_C4_upload_extension_gate "Statement.PDF").1 (by decide)⟩,
   ⟨by decide, (claim_C4_upload_extension_gate "statement.txt").2 (by decide)⟩⟩

/-- Claim C9: in the outstanding (receivables) report, a row's status badge
is a function of its ledger numbers alone: Cleared exactly when
outstanding is at most 0; otherwise Partial exactly when total_received is
positive; otherwise Pending. -/
theorem claim_C9_status_badge (b : BuyerLedgerRow) :
    (statusBadge b = "Cleared" ↔ b.outstanding ≤ 0) ∧
    (¬ b.outstanding ≤ 0 →
      (statusBadge b = "Partial" ↔ 0 < b.total_received)) ∧
    (¬ b.outstanding ≤ 0 → ¬ 0 < b.total_received →
      statusBadge b = "Pending") := by
  unfold statusBadge
  split_ifs with h1 h2
  · exact ⟨⟨fun _ => h1, fun _ => rfl⟩,
      fun hn => absurd h1 hn, fun hn _ => absurd h1 hn⟩
  · refine ⟨⟨fun hs => absurd hs (by decide), fun hh => absurd hh h1⟩,
      fun _ => ⟨fun _ => h2, fun _ => rfl⟩,
      fun _ hr => absurd h2 hr⟩
  · refine ⟨⟨fun hs => absurd hs (by decide), fun hh => absurd hh h1⟩,
      fun _ => ⟨fun hs => absurd hs (by decide), fun hh => absurd hh h2⟩,
      fun _ _ => rfl⟩

/-- Witness for C9: a buyer with sales 100, received 0, outstanding 100 is
rendered Pending. -/
theorem claim_C9_witness :
    ¬ ((100 : Rat) ≤ 0) ∧ statusBadge ⟨100, 0, 100⟩ = "Pending" :=
  ⟨by norm_num,
   (claim_C9_status_badge ⟨100, 0, 100⟩).2.2 (by norm_num) (by norm_num)⟩

/-! ## Field normalizer (backend extract_invoice_data)

The backend function is given verbatim in the repository's migration guide.
The Pydantic models `InvoiceData` and `ConfidenceScores` themselves live in
`server.py`, which is not among the available sources; their field lists
are fixed by the constructor calls in `extract_invoice_data`, and their
defaults are modelled from the spec. -/

/-- A raw value of the duck-typed AI extraction payload: a JSON string, a
number, or null. -/
inductive PyVal where
  | pstr : String → PyVal
  | pnum : Rat → PyVal
  | pnone : PyVal
deriving DecidableEq

/-- The raw key/value extraction payload (`data_dict`). -/
abbrev RawDict := List (String × PyVal)

/-- The raw per-field confidence payload (`confidence_dict`). -/
abbrev RawConf := List (String × Rat)

/-- Association-list lookup modelling Python `dict` access (first match). -/
def alookup {α : Type} (k : String) : List (String × α) → Option α
  | [] => none
  | (k2, v) :: t => if k2 = k then some v else alookup k t

/-- Modelled from the spec: the canonical invoice record produced by the
Field Normalizer.  Field list fixed by the `InvoiceData(...)` constructor
call in `extract_invoice_data`; string fields default to the empty string
and numeric fields to 0 (spec 4.1). -/
structure InvoiceData where
  invoice_no : String
  invoice_date : String
  bill_to_name : String
  bill_to_gst : String
  bill_to_address : String
  supplier_name : String
  supplier_gst : String
  supplier_address : String
  basic_amount : Rat
  gst : Rat
  total_amount : Rat
deriving DecidableEq

/-- `InvoiceData()` with every field at its default. -/
def emptyInvoiceData : InvoiceData :=
  ⟨"", "", "", "", "", "", "", "", 0, 0, 0⟩

/-- Modelled from the spec: the per-field confidence record.  Field list
fixed by the `ConfidenceScores(...)` constructor call in
`extract_invoice_data`; each field defaults to 0 (spec 4.1 / 7). -/
structure ConfidenceScores where
  invoice_no : Rat
  invoice_date : Rat
  bill_to_name : Rat
  bill_to_gst : Rat
  supplier_name : Rat
  supplier_gst : Rat
  basic_amount : Rat
  gst : Rat
  total_amount : Rat
deriving DecidableEq

/-- `ConfidenceScores()` with every confidence at 0. -/
def zeroConfidence : ConfidenceScores := ⟨0, 0, 0, 0, 0, 0, 0, 0, 0⟩

/-- The entries of a stored `confidence_scores` map, one per model field,
in declaration order (the serialized form of the Pydantic record). -/
def confEntries (c : ConfidenceScores) : List (String × Rat) :=
  [("invoice_no", c.invoice_no), ("invoice_date", c.invoice_date),
   ("bill_to_name", c.bill_to_name), ("bill_to_gst", c.bill_to_gst),
   ("supplier_name", c.supplier_name), ("supplier_gst", c.supplier_gst),
   ("basic_amount", c.basic_amount), ("gst", c.gst),
   ("total_amount", c.total_amount)]

/-- Python truthiness of a raw value, for the `or 0` guards. -/
def pyTruthy : PyVal → Bool
  | .pstr s => decide (s ≠ "")
  | .pnum n => decide (n ≠ 0)
  | .pnone => false

/-- Python `x or y`. -/
def pyOr (v w : PyVal) : PyVal := if pyTruthy v then v else w

/-- Characters Python/JS strip as whitespace. -/
def wsTrimLeft (l : List Char) : List Char := l.dropWhile Char.isWhitespace

/-- Strip whitespace from both ends of a character list. -/
def wsTrim (l : List Char) : List Char :=
  ((wsTrimLeft l).reverse.dropWhile Char.isWhitespace).reverse

/-- Leading sign of a numeric literal: returns (isNegative, rest). -/
def parseSign : List Char → Bool × List Char
  | '-' :: t => (true, t)
  | '+' :: t => (false, t)
  | l => (false, l)

/-- Value of a digit run (most significant first). -/
def natOfDigits (l : List Char) : Nat :=
  l.foldl (fun a c => a * 10 + (c.toNat - 48)) 0

/-- Value of an integer part plus a fractional digit run. -/
def decValue (ip fp : List Char) : Rat :=
  (natOfDigits ip : Rat) + (natOfDigits fp : Rat) / ((10 : Rat) ^ fp.length)

/-- Python `float(s)` on decimal literals: strips whitespace, then requires
the whole remainder to be `[sign] digits [. digits]` with at least one
digit; anything else raises (modelled as `none`). -/
def pyFloatOfString (s : String) : Option Rat :=
  let l := wsTrim s.data
  let sn := parseSign l
  let l1 := sn.2
  let ip := l1.takeWhile Char.isDigit
  let r1 := l1.dropWhile Char.isDigit
  match r1 with
  | [] =>
    if ip.isEmpty then none
    else some ((if sn.1 then -1 else 1) * (natOfDigits ip : Rat))
  | '.' :: t =>
    let fp := t.takeWhile Char.isDigit
    if (t.dropWhile Char.isDigit).isEmpty then
      if ip.isEmpty && fp.isEmpty then none
      else some ((if sn.1 then -1 else 1) * decValue ip fp)
    else none
  | _ => none

/-- Python `float(...)` applied to a raw payload value; `none` models a
raised conversion/validation error. -/
def floatCoerce : PyVal → Option Rat
  | .pnum n => some n
  | .pstr s => pyFloatOfString s
  | .pnone => none

/-- A numeric field of the payload as the code reads it:
`float(data_dict.get(key, 0) or 0)`. -/
def numField (d : RawDict) (k : String) : Option Rat :=
  floatCoerce (pyOr ((alookup k d).getD (.pnum 0)) (.pnum 0))

/-- A string field of the payload as the code reads it:
`data_dict.get(key, '')` validated as a string by the Pydantic model
(non-string present values are a validation error, modelled as `none`). -/
def strField (d : RawDict) (k : String) : Option String :=
  match (alookup k d).getD (.pstr "") with
  | .pstr s => some s
  | _ => none

/-- A confidence field as the code reads it:
`confidence_dict.get(key, 0)`. -/
def confField (c : RawConf) (k : String) : Rat := (alookup k c).getD 0

/-- The `ConfidenceScores(...)` construction of `extract_invoice_data`,
with the raw-payload key renames (`buyer_name` to `bill_to_name`, etc.). -/
def buildConfidence (c : RawConf) : ConfidenceScores :=
  ⟨confField c "invoice_no", confField c "invoice_date",
   confField c "buyer_name", confField c "buyer_gst_no",
   confField c "supplier_name", confField c "supplier_gst_no",
   confField c "basic_amount", confField c "gst",
   confField c "total_amount"⟩

/-- Whether every field coercion of the `InvoiceData(...)` construction
succeeds (Python evaluates all constructor arguments; any failure raises
into the handler). -/
def invoiceCoercionsOk (d : RawDict) : Bool :=
  (strField d "invoice_no").isSome && (strField d "invoice_date").isSome &&
  (strField d "buyer_name").isSome && (strField d "buyer_gst_no").isSome &&
  (strField d "buyer_address").isSome && (strField d "supplier_name").isSome &&
  (strField d "supplier_gst_no").isSome &&
  (strField d "supplier_address").isSome &&
  (numField d "basic_amount").isSome && (numField d "gst").isSome &&
  (numField d "total_amount").isSome

/-- The `InvoiceData(...)` construction of `extract_invoice_data`; `none`
models an exception escaping to the `except` handler. -/
def buildInvoiceData (d : RawDict) : Option InvoiceData :=
  if invoiceCoercionsOk d then
    some ⟨(strField d "invoice_no").getD "", (strField d "invoice_date").getD "",
      (strField d "buyer_name").getD "", (strField d "buyer_gst_no").getD "",
      (strField d "buyer_address").getD "", (strField d "supplier_name").getD "",
      (strField d "supplier_gst_no").getD "",
      (strField d "supplier_address").getD "",
      (numField d "basic_amount").getD 0, (numField d "gst").getD 0,
      (numField d "total_amount").getD 0⟩
  else none

/-- `extract_invoice_data`: the whole body runs in a `try`; a failure of
the extraction call itself (the `Except.error` case) or any mapping error
lands in the handler, which logs and returns
`(InvoiceData(), ConfidenceScores())`. -/
def extract_invoice_data (res : Except String (RawDict × RawConf)) :
    InvoiceData × ConfidenceScores :=
  match res with
  | .error _ => (emptyInvoiceData, zeroConfidence)
  | .ok (d, c) =>
    match buildInvoiceData d with
    | some inv => (inv, buildConfidence c)
    | none => (emptyInvoiceData, zeroConfidence)

theorem strField_of_absent {d : RawDict} {k : String}
    (h : alookup k d = none) : strField d k = some "" := by
  simp [strField, h]

theorem numField_of_absent {d : RawDict} {k : String}
    (h : alookup k d = none) : numField d k = some 0 := by
  simp [numField, h, pyOr, pyTruthy, floatCoerce]

theorem buildInvoiceData_eq {d : RawDict} {inv : InvoiceData}
    (h : buildInvoiceData d = some inv) :
    inv = ⟨(strField d "invoice_no").getD "", (strField d "invoice_date").getD "",
      (strField d "buyer_name").getD "", (strField d "buyer_gst_no").getD "",
      (strField d "buyer_address").getD "", (strField d "supplier_name").getD "",
      (strField d "supplier_gst_no").getD "",
      (strField d "supplier_address").getD "",
      (numField d "basic_amount").getD 0, (numField d "gst").getD 0,
      (numField d "total_amount").getD 0⟩ := by
  unfold buildInvoiceData at h
  split at h
  · exact (Option.some.injEq _ _ ▸ h).symm
  · exact absurd h (by simp)

/-- Claim C3: normalization is total (this Lean model of it is a total
function of the raw payload), and every canonical field whose key the
payload omits comes out as the empty string (string fields) or 0 (numeric
fields), on both the success and the exception-recovery path. -/
theorem claim_C3_normalization_defaults (d : RawDict) (c : RawConf) :
    (alookup "invoice_no" d = none →
      (extract_invoice_data (.ok (d, c))).1.invoice_no = "") ∧
    (alookup "invoice_date" d = none →
      (extract_invoice_data (.ok (d, c))).1.invoice_date = "") ∧
    (alookup "buyer_name" d = none →
      (extract_invoice_data (.ok (d, c))).1.bill_to_name = "") ∧
    (alookup "buyer_gst_no" d = none →
      (extract_invoice_data (.ok (d, c))).1.bill_to_gst = "") ∧
    (alookup "buyer_address" d = none →
      (extract_invoice_data (.ok (d, c))).1.bill_to_address = "") ∧
    (alookup "supplier_name" d = none →
      (extract_invoice_data (.ok (d, c))).1.supplier_name = "") ∧
    (alookup "supplier_gst_no" d = none →
      (extract_invoice_data (.ok (d, c))).1.supplier_gst = "") ∧
    (alookup "supplier_address" d = none →
      (extract_invoice_data (.ok (d, c))).1.supplier_address = "") ∧
    (alookup "basic_amount" d = none →
      (extract_invoice_data (.ok (d, c))).1.basic_amount = 0) ∧
    (alookup "gst" d = none →
      (extract_invoice_data (.ok (d, c))).1.gst = 0) ∧
    (alookup "total_amount" d = none →
      (extract_invoice_data (.ok (d, c))).1.total_amount = 0) := by
  cases hb : buildInvoiceData d with
  | none =>
    simp only [extract_invoice_data, hb]
    exact ⟨fun _ => rfl, fun _ => rfl, fun _ => rfl, fun _ => rfl,
      fun _ => rfl, fun _ => rfl, fun _ => rfl, fun _ => rfl,
      fun _ => rfl, fun _ => rfl, fun _ => rfl⟩
  | some inv =>
    have hinv := buildInvoiceData_eq hb
    simp only [extract_invoice_data, hb, hinv]
    refine ⟨fun h => ?_, fun h => ?_, fun h => ?_, fun h => ?_, fun h => ?_,
      fun h => ?_, fun h => ?_, fun h => ?_, fun h => ?_, fun h => ?_,
      fun h => ?_⟩ <;>
      simp [strField_of_absent h, numField_of_absent h]

/-- Witness for C3: the empty payload maps to the all-default record. -/
theorem claim_C3_witness :
    alookup "invoice_no" ([] : RawDict) = none ∧
    alookup "basic_amount" ([] : RawDict) = none ∧
    (extract_invoice_data (.ok ([], []))).1.invoice_no = "" ∧
    (extract_invoice_data (.ok ([], []))).1.basic_amount = 0 :=
  ⟨rfl, rfl,
   (claim_C3_normalization_defaults [] []).1 rfl,
   (claim_C3_normalization_defaults [] []).2.2.2.2.2.2.2.2.1 rfl⟩

/-- Claim C2: when the extraction call itself fails, `extract_invoice_data`
returns the record with every string field empty and every numeric field 0
together with the all-zero confidence map, and (being a total function)
never propagates the failure. -/
theorem claim_C2_extraction_failure_recovery (e : String) :
    extract_invoice_data (.error e) = (emptyInvoiceData, zeroConfidence) ∧
    emptyInvoiceData.invoice_no = "" ∧
    emptyInvoiceData.invoice_date = "" ∧
    emptyInvoiceData.bill_to_name = "" ∧
    emptyInvoiceData.bill_to_gst = "" ∧
    emptyInvoiceData.bill_to_address = "" ∧
    emptyInvoiceData.supplier_name = "" ∧
    emptyInvoiceData.supplier_gst = "" ∧
    emptyInvoiceData.supplier_address = "" ∧
    emptyInvoiceData.basic_amount = 0 ∧
    emptyInvoiceData.gst = 0 ∧
    emptyInvoiceData.total_amount = 0 ∧
    confEntries zeroConfidence =
      [("invoice_no", 0), ("invoice_date", 0), ("bill_to_name", 0),
       ("bill_to_gst", 0), ("supplier_name", 0), ("supplier_gst", 0),
       ("basic_amount", 0), ("gst", 0), ("total_amount", 0)] :=
  ⟨rfl, rfl, rfl, rfl, rfl, rfl, rfl, rfl, rfl, rfl, rfl, rfl, rfl⟩

/-! ## Manual sales entry (ManualEntry page, part of the frontend) -/

/-- JavaScript `parseFloat` on decimal literals: skips leading whitespace,
takes the longest prefix of the form `[sign] digits [. digits]` with at
least one digit, trailing junk ignored; no digits means NaN (`none`). -/
def jsParseFloat (s : String) : Option Rat :=
  let l := wsTrimLeft s.data
  let sn := parseSign l
  let l1 := sn.2
  let ip := l1.takeWhile Char.isDigit
  let r1 := l1.dropWhile Char.isDigit
  let fp := match r1 with
    | '.' :: t => t.takeWhile Char.isDigit
    | _ => []
  if ip.isEmpty && fp.isEmpty then none
  else some ((if sn.1 then -1 else 1) * decValue ip fp)

/-- The `parseFloat(x) || 0` idiom: both NaN and 0 collapse to 0. -/
def parseFloatOr0 (s : String) : Rat := (jsParseFloat s).getD 0

/-- JavaScript `toFixed(2)` on the exact rational value: the nearest
multiple of 1/100, ties towards the larger value, printed with exactly two
decimals. -/
def toFixed2 (q : Rat) : String :=
  let n : Int := Int.floor (q * 100 + 1 / 2)
  let m : Nat := n.natAbs
  let frac : Nat := m % 100
  (if n < 0 then "-" else "") ++ toString (m / 100) ++ "." ++
    (if frac < 10 then "0" else "") ++ toString frac

/-- The sales-entry form state: every input is a string. -/
structure SalesForm where
  invoice_no : String
  invoice_date : String
  buyer_name : String
  buyer_gst : String
  buyer_address : String
  basic_amount : String
  gst : String
  total_amount : String

/-- `calculateTotal`: the optional auto-calculate helper writes
`(parseFloat(basic) || 0) + (parseFloat(gst) || 0)` with `toFixed(2)` into
the form's total_amount. -/
def calculateTotal (f : SalesForm) : SalesForm :=
  { f with total_amount :=
      toFixed2 (parseFloatOr0 f.basic_amount + parseFloatOr0 f.gst) }

/-- The `extracted_data` object the manual sales submission posts. -/
structure ManualExtractedData where
  invoice_no : String
  invoice_date : String
  bill_to_name : String
  bill_to_gst : String
  bill_to_address : String
  basic_amount : Rat
  gst : Rat
  total_amount : Rat
  supplier_name : String
  supplier_gst : String
deriving DecidableEq

/-- The invoice payload the manual sales submission posts to
`/invoices/manual`. -/
structure ManualInvoicePayload where
  invoice_type : String
  original_filename : String
  extracted_data : ManualExtractedData
  confidence_scores : List (String × Rat)
  status : String
  is_manual_entry : Bool
deriving DecidableEq

/-- `handleSalesSubmit`: rejects (with a toast, posting nothing) when
invoice_no, buyer_name or total_amount is empty; otherwise posts the
payload, with amounts parsed by `parseFloat(x) || 0` and an empty
`confidence_scores` object. -/
def handleSalesSubmit (f : SalesForm) : Option ManualInvoicePayload :=
  if f.invoice_no = "" || f.buyer_name = "" || f.total_amount = "" then none
  else some
    { invoice_type := "sales"
      original_filename := "Manual Entry - " ++ f.invoice_no
      extracted_data :=
        { invoice_no := f.invoice_no
          invoice_date := f.invoice_date
          bill_to_name := f.buyer_name
          bill_to_gst := f.buyer_gst
          bill_to_address := f.buyer_address
          basic_amount := parseFloatOr0 f.basic_amount
          gst := parseFloatOr0 f.gst
          total_amount := parseFloatOr0 f.total_amount
          supplier_name := ""
          supplier_gst := "" }
      confidence_scores := []
      status := "verified"
      is_manual_entry := true }

/-- Claim C8: the relation total = basic + gst is not enforced at write
time: any form with the three required fields nonempty is submitted, its
posted total being just the parsed form total; and the auto-calculate
helper, when invoked, sets total_amount to exactly basic + gst (parsed with
unparseable treated as 0) rounded to two decimals. -/
theorem claim_C8_total_not_enforced (f : SalesForm) :
    (f.invoice_no ≠ "" → f.buyer_name ≠ "" → f.total_amount ≠ "" →
      ∃ p, handleSalesSubmit f = some p ∧
        p.extracted_data.total_amount = parseFloatOr0 f.total_amount ∧
        p.extracted_data.basic_amount = parseFloatOr0 f.basic_amount ∧
        p.extracted_data.gst = parseFloatOr0 f.gst) ∧
    (calculateTotal f).total_amount =
      toFixed2 (parseFloatOr0 f.basic_amount + parseFloatOr0 f.gst) := by
  refine ⟨fun h1 h2 h3 => ?_, rfl⟩
  have hs : handleSalesSubmit f = some
      { invoice_type := "sales"
        original_filename := "Manual Entry - " ++ f.invoice_no
        extracted_data :=
          { invoice_no := f.invoice_no
            invoice_date := f.invoice_date
            bill_to_name := f.buyer_name
            bill_to_gst := f.buyer_gst
            bill_to_address := f.buyer_address
            basic_amount := parseFloatOr0 f.basic_amount
            gst := parseFloatOr0 f.gst
            total_amount := parseFloatOr0 f.total_amount
            supplier_name := ""
            supplier_gst := "" }
        confidence_scores := []
        status := "verified"
        is_manual_entry := true } := by
    simp [handleSalesSubmit, h1, h2, h3]
  exact ⟨_, hs, rfl, rfl, rfl⟩

theorem parseFloatOr0_eval_500 : parseFloatOr0 "500" = 500 := by
  have h : jsParseFloat "500" = some (1 * decValue ['5', '0', '0'] []) := rfl
  have hn : natOfDigits ['5', '0', '0'] = 500 := rfl
  have hn0 : natOfDigits [] = 0 := rfl
  rw [parseFloatOr0, h, Option.getD_some, decValue, hn, hn0]
  norm_num

theorem parseFloatOr0_eval_100 : parseFloatOr0 "100" = 100 := by
  have h : jsParseFloat "100" = some (1 * decValue ['1', '0', '0'] []) := rfl
  have hn : natOfDigits ['1', '0', '0'] = 100 := rfl
  have hn0 : natOfDigits [] = 0 := rfl
  rw [parseFloatOr0, h, Option.getD_some, decValue, hn, hn0]
  norm_num

theorem parseFloatOr0_eval_18 : parseFloatOr0 "18" = 18 := by
  have h : jsParseFloat "18" = some (1 * decValue ['1', '8'] []) := rfl
  have hn : natOfDigits ['1', '8'] = 18 := rfl
  have hn0 : natOfDigits [] = 0 := rfl
  rw [parseFloatOr0, h, Option.getD_some, decValue, hn, hn0]
  norm_num

theorem toFixed2_eval_118 : toFixed2 118 = "118.00" := by
  have hfl : (Int.floor ((118 : Rat) * 100 + 1 / 2)) = 11800 := by
    rw [Int.floor_eq_iff]
    norm_num
  simp only [toFixed2, hfl]
  rfl

/-- Witness for C8: a form whose total (500) differs from basic + gst
(100 + 18) is accepted as-is, and `calculateTotal` on the same form would
write "118.00". -/
theorem claim_C8_witness :
    parseFloatOr0 "500" ≠ parseFloatOr0 "100" + parseFloatOr0 "18" ∧
    (∃ p, handleSalesSubmit
        ⟨"INV-9", "01/04/2024", "ABC Traders", "", "", "100", "18", "500"⟩ =
          some p ∧
        p.extracted_data.total_amount = parseFloatOr0 "500" ∧
        p.extracted_data.basic_amount = parseFloatOr0 "100" ∧
        p.extracted_data.gst = parseFloatOr0 "18") ∧
    (calculateTotal
        ⟨"INV-9", "01/04/2024", "ABC Traders", "", "", "100", "18", "500"⟩).total_amount
      = "118.00" := by
  refine ⟨?_, ?_, ?_⟩
  · rw [parseFloatOr0_eval_500, parseFloatOr0_eval_100, parseFloatOr0_eval_18]
    norm_num
  · exact (claim_C8_total_not_enforced
      ⟨"INV-9", "01/04/2024", "ABC Traders", "", "", "100", "18", "500"⟩).1
      (by decide) (by decide) (by decide)
  · have h := (claim_C8_total_not_enforced
      ⟨"INV-9", "01/04/2024", "ABC Traders", "", "", "100", "18", "500"⟩).2
    rw [h, parseFloatOr0_eval_100, parseFloatOr0_eval_18]
    have h2 : (100 : Rat) + 18 = 118 := by norm_num
    rw [h2, toFixed2_eval_118]

/-! ## Confidence-map shape (claim C1) -/

theorem confField_bounds {c : RawConf}
    (hb : ∀ kv ∈ c, 0 ≤ kv.2 ∧ kv.2 ≤ 1) (k : String) :
    0 ≤ confField c k ∧ confField c k ≤ 1 := by
  induction c with
  | nil => norm_num [confField, alookup]
  | cons kv t ih =>
    by_cases hk : kv.1 = k
    · have := hb kv (List.mem_cons_self kv t)
      simpa [confField, alookup, hk] using this
    · have ht : ∀ kv2 ∈ t, 0 ≤ kv2.2 ∧ kv2.2 ≤ 1 :=
        fun kv2 hm => hb kv2 (List.mem_cons_of_mem kv hm)
      have := ih ht
      simpa [confField, alookup, hk] using this

theorem confEntries_buildConfidence_mem {c : RawConf} {kv : String × Rat}
    (h : kv ∈ confEntries (buildConfidence c)) :
    ∃ k2, kv.2 = confField c k2 := by
  simp only [confEntries, buildConfidence, List.mem_cons,
    List.not_mem_nil, or_false] at h
  rcases h with rfl | rfl | rfl | rfl | rfl | rfl | rfl | rfl | rfl <;>
    exact ⟨_, rfl⟩

/-- Claim C1 amended: an invoice produced by the AI-extraction path carries
a confidence map of exactly 9 entries (both the bill-to and the supplier
identity pairs are tracked), each entry in [0,1] whenever the extraction
service's reported confidences are (absent entries default to 0); the
exception path carries the same 9 entries, all 0; and a manual-entry
submission carries an empty confidence map. -/
theorem claim_C1_confidence_shape (d : RawDict) (c : RawConf) (e : String)
    (f : SalesForm) :
    (confEntries (extract_invoice_data (.ok (d, c))).2).length = 9 ∧
    ((∀ kv ∈ c, 0 ≤ kv.2 ∧ kv.2 ≤ 1) →
      ∀ kv ∈ confEntries (extract_invoice_data (.ok (d, c))).2,
        0 ≤ kv.2 ∧ kv.2 ≤ 1) ∧
    (confEntries (extract_invoice_data (.error e)).2).length = 9 ∧
    (∀ kv ∈ confEntries (extract_invoice_data (.error e)).2, kv.2 = 0) ∧
    (∀ p, handleSalesSubmit f = some p → p.confidence_scores = []) := by
  refine ⟨?_, ?_, rfl, ?_, ?_⟩
  · cases hb : buildInvoiceData d <;> simp [extract_invoice_data, hb, confEntries]
  · intro hbound kv hm
    cases hb : buildInvoiceData d with
    | none =>
      rw [extract_invoice_data] at hm
      simp only [hb] at hm
      simp only [confEntries, zeroConfidence, List.mem_cons,
        List.not_mem_nil, or_false] at hm
      rcases hm with rfl | rfl | rfl | rfl | rfl | rfl | rfl | rfl | rfl <;>
        exact ⟨le_refl 0, by norm_num⟩
    | some inv =>
      rw [extract_invoice_data] at hm
      simp only [hb] at hm
      obtain ⟨k2, hk2⟩ := confEntries_buildConfidence_mem hm
      rw [hk2]
      exact confField_bounds hbound k2
  · intro kv hm
    simp only [extract_invoice_data, confEntries, zeroConfidence,
      List.mem_cons, List.not_mem_nil, or_false] at hm
    rcases hm with rfl | rfl | rfl | rfl | rfl | rfl | rfl | rfl | rfl <;> rfl
  · intro p hp
    rw [handleSalesSubmit] at hp
    split at hp
    · exact absurd hp (by simp)
    · cases hp.symm
      rfl

/-- Counterexample to C1 as stated: the extraction path always stores 9
confidence entries, never 8; and an unclamped service confidence of 3/2
is stored as-is, outside [0,1]. -/
theorem claim_C1_counterexample :
    (confEntries
      (extract_invoice_data (.ok ([], [("invoice_no", (3 : Rat)/2)]))).2).length
      = 9 ∧ (9 : Nat) ≠ 8 ∧
    confField [("invoice_no", (3 : Rat)/2)] "invoice_no" = (3 : Rat)/2 ∧
    ¬ ((3 : Rat)/2 ≤ 1) := by
  refine ⟨rfl, by decide, rfl, by norm_num⟩

/-- Witness for C1 (amended): a service payload with one in-range
confidence yields all 9 stored entries in range, and a concrete manual
sales form posts an empty confidence map. -/
theorem claim_C1_witness :
    ((0 : Rat) ≤ 1/2 ∧ (1 : Rat)/2 ≤ 1) ∧
    (confEntries
      (extract_invoice_data (.ok ([], [("invoice_no", (1 : Rat)/2)]))).2).length
      = 9 ∧
    (0 ≤ confField [("invoice_no", (1 : Rat)/2)] "invoice_no" ∧
      confField [("invoice_no", (1 : Rat)/2)] "invoice_no" ≤ 1) := by
  have hth := claim_C1_confidence_shape [] [("invoice_no", (1 : Rat)/2)] ""
    ⟨"INV-1", "", "B", "", "", "", "", "1"⟩
  have hbound : ∀ kv ∈ ([("invoice_no", (1 : Rat)/2)] : RawConf),
      0 ≤ kv.2 ∧ kv.2 ≤ 1 := by
    intro kv hm
    simp only [List.mem_cons, List.not_mem_nil, or_false] at hm
    subst hm
    constructor <;> norm_num
  have hmem : ("invoice_no",
      confField [("invoice_no", (1 : Rat)/2)] "invoice_no") ∈
      confEntries
        (extract_invoice_data (.ok ([], [("invoice_no", (1 : Rat)/2)]))).2 := by
    have hx : (extract_invoice_data (.ok ([], [("invoice_no", (1 : Rat)/2)]))).2
        = buildConfidence [("invoice_no", (1 : Rat)/2)] := rfl
    rw [hx]
    simp [confEntries, buildConfidence]
  exact ⟨by constructor <;> norm_num, hth.1, hth.2.1 hbound _ hmem⟩

/-! ## Mapping store and bulk mapping (claims C5, C6)

The store itself is implemented in the backend (`server.py`), which is not
among the available sources; only its frontend callers are.  The
definitions below are therefore modelled from the specification (4.4 step
1, 4.6): an override keyed by transaction index, always winning over the
engine; setting null deletes it; bulk mapping validates the whole index
list before applying anything. -/

/-- Direction of a mapping override. -/
inductive MapDirection where
  | receivable
  | payable
deriving DecidableEq

/-- Modelled from the spec: the MappingOverride store for one statement,
keyed by transaction index. -/
abbrev OverrideState := List (Nat × String × MapDirection)

/-- Modelled from the spec: lookup of the override for one transaction. -/
def lookupOverride (i : Nat) : OverrideState → Option (String × MapDirection)
  | [] => none
  | (j, p, d) :: t => if j = i then some (p, d) else lookupOverride i t

/-- Modelled from the spec: set-mapping(statement, index, party-or-null,
direction).  A party name upserts the override; null deletes it. -/
def setMapping (s : OverrideState) (i : Nat) (party : Option String)
    (dir : MapDirection) : OverrideState :=
  match party with
  | some p => (i, p, dir) :: s.filter (fun e => e.1 != i)
  | none => s.filter (fun e => e.1 != i)

/-- Result of the Matching Engine for one transaction: an auto match with
its 0-100 score, or no match. -/
inductive EngineResult where
  | auto : String → Nat → EngineResult
  | noMatch
deriving DecidableEq

/-- A transaction as returned by the transaction-list endpoint: its
match_type, mapped party and score. -/
structure TxView where
  match_type : String
  mapped_party : Option String
  match_score : Option Nat
deriving DecidableEq

/-- How an engine result is rendered in the transaction list. -/
def renderEngine : EngineResult → TxView
  | .auto p sc => ⟨"auto", some p, some sc⟩
  | .noMatch => ⟨"none", none, none⟩

/-- Modelled from the spec: fetching one transaction consults the override
store first (match_type manual, the stored party), otherwise reports the
engine's recomputed result. -/
def fetchTransaction (engine : Nat → EngineResult) (s : OverrideState)
    (i : Nat) : TxView :=
  match lookupOverride i s with
  | some (p, _) => ⟨"manual", some p, none⟩
  | none => renderEngine (engine i)

theorem lookupOverride_filter_ne (i : Nat) (s : OverrideState) :
    lookupOverride i (s.filter (fun e => e.1 != i)) = none := by
  induction s with
  | nil => rfl
  | cons e t ih =>
    by_cases he : e.1 = i
    · simpa [List.filter_cons, he] using ih
    · obtain ⟨j, p, d⟩ := e
      simp only at he
      simp [List.filter_cons, he, lookupOverride, ih]

theorem lookupOverride_set_self (s : OverrideState) (i : Nat) (p : String)
    (d : MapDirection) :
    lookupOverride i (setMapping s i (some p) d) = some (p, d) := by
  simp [setMapping, lookupOverride]

theorem lookupOverride_set_other {i j : Nat} (hne : j ≠ i)
    (s : OverrideState) (p : Option String) (d : MapDirection) :
    lookupOverride j (setMapping s i p d) = lookupOverride j s := by
  have hfilter : ∀ t : OverrideState,
      lookupOverride j (t.filter (fun e => e.1 != i)) = lookupOverride j t := by
    intro t
    induction t with
    | nil => rfl
    | cons e t2 ih =>
      obtain ⟨k, q, d2⟩ := e
      by_cases hk : k = i
      · subst hk
        simp [List.filter_cons, lookupOverride, Ne.symm hne, ih]
      · by_cases hj : k = j <;>
          simp [List.filter_cons, lookupOverride, hk, hj, hne, ih]
  cases p with
  | some q => simp [setMapping, lookupOverride, Ne.symm hne, hfilter]
  | none => simp [setMapping, hfilter]

/-- Claim C5: setting a manual mapping and immediately fetching that
transaction yields match_type manual with the set party; setting it to
null reverts the fetched view to the engine's recomputed value (auto or
none). -/
theorem claim_C5_mapping_round_trip (engine : Nat → EngineResult)
    (s : OverrideState) (i : Nat) (p : String) (d : MapDirection) :
    fetchTransaction engine (setMapping s i (some p) d) i =
      ⟨"manual", some p, none⟩ ∧
    fetchTransaction engine (setMapping s i none d) i =
      renderEngine (engine i) := by
  constructor
  · simp [fetchTransaction, lookupOverride_set_self]
  · simp [fetchTransaction, setMapping, lookupOverride_filter_ne]

/-- Modelled from the spec: bulk-set-mapping(statement, indices, party,
direction).  The whole index list is validated against the statement's
transaction count before anything is applied; on success every listed
index is upserted, otherwise an error is returned and nothing changes. -/
def bulkSetMapping (txCount : Nat) (s : OverrideState) (idxs : List Nat)
    (p : String) (d : MapDirection) : Except String OverrideState :=
  if idxs.all (fun i => i < txCount) then
    .ok (idxs.foldl (fun st i => setMapping st i (some p) d) s)
  else .error "invalid transaction index"

/-- The state the caller ends up observing after a bulk call: the updated
store on success, the untouched store on failure. -/
def bulkCallerState (txCount : Nat) (s : OverrideState) (idxs : List Nat)
    (p : String) (d : MapDirection) : OverrideState :=
  match bulkSetMapping txCount s idxs p d with
  | .ok s2 => s2
  | .error _ => s

theorem lookupOverride_foldl_not_mem {i : Nat} {idxs : List Nat}
    (h : i ∉ idxs) (s : OverrideState) (p : String) (d : MapDirection) :
    lookupOverride i
      (idxs.foldl (fun st j => setMapping st j (some p) d) s) =
      lookupOverride i s := by
  induction idxs generalizing s with
  | nil => rfl
  | cons a t ih =>
    have hia : i ≠ a := fun he => h (he ▸ List.mem_cons_self a t)
    have hit : i ∉ t := fun hm => h (List.mem_cons_of_mem a hm)
    rw [List.foldl_cons, ih hit, lookupOverride_set_other hia]

theorem lookupOverride_foldl_mem {i : Nat} {idxs : List Nat}
    (h : i ∈ idxs) (s : OverrideState) (p : String) (d : MapDirection) :
    lookupOverride i
      (idxs.foldl (fun st j => setMapping st j (some p) d) s) =
      some (p, d) := by
  induction idxs generalizing s with
  | nil => exact absurd h (List.not_mem_nil i)
  | cons a t ih =>
    rw [List.foldl_cons]
    by_cases hit : i ∈ t
    · exact ih hit _
    · have hia : i = a := by
        rcases List.mem_cons.mp h with he | hm
        · exact he
        · exact absurd hm hit
      subst hia
      rw [lookupOverride_foldl_not_mem hit, lookupOverride_set_self]

/-- Claim C6: a bulk-set-mapping call is atomic from the caller's point of
view: either it fails (some listed index is out of range) and the caller's
state is unchanged, or it succeeds and every listed index is afterwards
mapped manually to the given party and direction, all other indices being
untouched. -/
theorem claim_C6_bulk_atomicity (engine : Nat → EngineResult)
    (txCount : Nat) (s : OverrideState) (idxs : List Nat) (p : String)
    (d : MapDirection) :
    ((∃ e, bulkSetMapping txCount s idxs p d = .error e) ∧
      bulkCallerState txCount s idxs p d = s) ∨
    (bulkSetMapping txCount s idxs p d =
        .ok (bulkCallerState txCount s idxs p d) ∧
      (∀ i ∈ idxs,
        lookupOverride i (bulkCallerState txCount s idxs p d) = some (p, d) ∧
        fetchTransaction engine (bulkCallerState txCount s idxs p d) i =
          ⟨"manual", some p, none⟩) ∧
      (∀ j, j ∉ idxs →
        lookupOverride j (bulkCallerState txCount s idxs p d) =
          lookupOverride j s)) := by
  by_cases hall : idxs.all (fun i => i < txCount)
  · right
    have hok : bulkSetMapping txCount s idxs p d =
        .ok (idxs.foldl (fun st i => setMapping st i (some p) d) s) := by
      simp [bulkSetMapping, hall]
    have hcs : bulkCallerState txCount s idxs p d =
        idxs.foldl (fun st i => setMapping st i (some p) d) s := by
      simp [bulkCallerState, hok]
    refine ⟨by rw [hok, hcs], fun i hi => ?_, fun j hj => ?_⟩
    · have hl := lookupOverride_foldl_mem hi s p d
      rw [hcs]
      exact ⟨hl, by simp [fetchTransaction, hl]⟩
    · rw [hcs]
      exact lookupOverride_foldl_not_mem hj s p d
  · left
    have herr : bulkSetMapping txCount s idxs p d =
        .error "invalid transaction index" := by
      simp only [bulkSetMapping, hall]
      rw [if_neg]
      simp [hall]
    exact ⟨⟨_, herr⟩, by simp [bulkCallerState, herr]⟩

/-- Witness for C6: bulk-mapping five transactions to Acme Ltd on an empty
store updates all five as manual mappings; index 7 stays untouched. -/
theorem claim_C6_witness :
    lookupOverride 3
        (bulkCallerState 10 [] [1, 2, 3, 4, 5] "Acme Ltd"
          MapDirection.receivable) =
      some ("Acme Ltd", MapDirection.receivable) ∧
    lookupOverride 7
        (bulkCallerState 10 [] [1, 2, 3, 4, 5] "Acme Ltd"
          MapDirection.receivable) = none := by
  have hth := claim_C6_bulk_atomicity (fun _ => .noMatch) 10 []
    [1, 2, 3, 4, 5] "Acme Ltd" MapDirection.receivable
  rcases hth with ⟨⟨e, he⟩, _⟩ | ⟨_, hmem, hout⟩
  · exact absurd he (by simp [bulkSetMapping])
  · exact ⟨(hmem 3 (by decide)).1, hout 7 (by decide)⟩

/-! ## GST mismatch flag (claim C7)

The Validation Flagger runs in the backend (`server.py`), not among the
available sources; the frontend only reads the resulting
`validation_flags.gst_mismatch`.  Modelled from the specification (4.2). -/

/-- Invoice direction. -/
inductive InvoiceType where
  | purchase
  | sales
deriving DecidableEq

/-- Modelled from the spec: the extracted GST value the configured company
GST is compared against — the bill-to GST for a purchase invoice, the
supplier GST for a sales invoice. -/
def relevantExtractedGst (t : InvoiceType) (inv : InvoiceData) : String :=
  match t with
  | .purchase => inv.bill_to_gst
  | .sales => inv.supplier_gst

/-- Modelled from the spec: the GST mismatch check.  Absence (emptiness) of
either GST value is not a mismatch; only two present, differing values
set the flag. -/
def gstMismatchFlag (t : InvoiceType) (companyGst : String)
    (inv : InvoiceData) : Bool :=
  if companyGst = "" then false
  else if relevantExtractedGst t inv = "" then false
  else companyGst != relevantExtractedGst t inv

/-- Claim C7: the gst_mismatch flag is never set when either the
configured company GST or the relevant extracted GST is empty, and it is
set only when both are present and differ. -/
theorem claim_C7_gst_no_false_positive (t : InvoiceType)
    (companyGst : String) (inv : InvoiceData) :
    ((companyGst = "" ∨ relevantExtractedGst t inv = "") →
      gstMismatchFlag t companyGst inv = false) ∧
    (gstMismatchFlag t companyGst inv = true →
      companyGst ≠ "" ∧ relevantExtractedGst t inv ≠ "" ∧
        companyGst ≠ relevantExtractedGst t inv) := by
  unfold gstMismatchFlag
  split_ifs with h1 h2
  · exact ⟨fun _ => rfl, fun hc => absurd hc (by simp)⟩
  · exact ⟨fun _ => rfl, fun hc => absurd hc (by simp)⟩
  · refine ⟨fun hor => ?_, fun hc => ⟨h1, h2, ?_⟩⟩
    · rcases hor with he | he
      · exact absurd he h1
      · exact absurd he h2
    · simpa using hc

/-- Witness for C7: an empty configured company GST never flags, a real
difference does flag. -/
theorem claim_C7_witness :
    gstMismatchFlag .purchase "" emptyInvoiceData = false ∧
    gstMismatchFlag .purchase "09AAACB1234C1Z5"
        { emptyInvoiceData with bill_to_gst := "07XXXXX9999X9Z9" } = true :=
  ⟨(claim_C7_gst_no_false_positive .purchase "" emptyInvoiceData).1
    (Or.inl rfl),
   by decide⟩

/-! ## Invoice date formatting (utils/dateFormat.js, claim C10) -/

/-- JavaScript `split('/')` on a character list. -/
def splitOnSlash : List Char → List (List Char)
  | [] => [[]]
  | c :: t =>
    if c = '/' then [] :: splitOnSlash t
    else
      match splitOnSlash t with
      | h :: r => (c :: h) :: r
      | [] => [[c]]

/-- JavaScript `padStart(2, '0')`. -/
def padStart2 (l : List Char) : List Char :=
  if l.length < 2 then List.replicate (2 - l.length) '0' ++ l else l

/-- JavaScript `Number(string)` followed by integer truncation, on decimal
literals as they occur in date fields: whitespace-trimmed; the empty
string is 0; otherwise `[sign] digits [. digits]` with at least one digit,
truncated towards zero; anything else is NaN (`none`). -/
def jsNumberInt (l0 : List Char) : Option Int :=
  let l := wsTrim l0
  if l.isEmpty then some 0
  else
    let sn := parseSign l
    let l1 := sn.2
    let ip := l1.takeWhile Char.isDigit
    let r1 := l1.dropWhile Char.isDigit
    match r1 with
    | [] =>
      if ip.isEmpty then none
      else some ((if sn.1 then -1 else 1) * (natOfDigits ip : Int))
    | '.' :: t =>
      if (t.dropWhile Char.isDigit).isEmpty then
        if ip.isEmpty && (t.takeWhile Char.isDigit).isEmpty then none
        else some ((if sn.1 then -1 else 1) * (natOfDigits ip : Int))
      else none
    | _ => none

/-- JavaScript `parseInt(string)`: whitespace-trimmed leading
`[sign] digits` prefix, at least one digit, trailing junk ignored. -/
def parseIntJS (l0 : List Char) : Option Int :=
  let l := wsTrim l0
  let sn := parseSign l
  let ip := sn.2.takeWhile Char.isDigit
  if ip.isEmpty then none
  else some ((if sn.1 then -1 else 1) * (natOfDigits ip : Int))

/-- Days from the civil epoch 1970-01-01 of year/month/day (month 1-12),
proleptic Gregorian. -/
def daysFromCivil (y m d : Int) : Int :=
  let y2 := y - (if m ≤ 2 then 1 else 0)
  let era := Int.fdiv y2 400
  let yoe := y2 - era * 400
  let mp := m + (if 2 < m then -3 else 9)
  let doy := Int.fdiv (153 * mp + 2) 5 + d - 1
  let doe := yoe * 365 + Int.fdiv yoe 4 - Int.fdiv yoe 100 + doy
  era * 146097 + doe - 719468

/-- The civil month (1-12) of the day that lies `z0` days after
1970-01-01, proleptic Gregorian. -/
def civilMonthFromDays (z0 : Int) : Int :=
  let z := z0 + 719468
  let era := Int.fdiv z 146097
  let doe := z - era * 146097
  let yoe :=
    Int.fdiv (doe - Int.fdiv doe 1460 + Int.fdiv doe 36524 -
      Int.fdiv doe 146096) 365
  let doy := doe - (365 * yoe + Int.fdiv yoe 4 - Int.fdiv yoe 100)
  let mp := Int.fdiv (5 * doy + 2) 153
  mp + (if mp < 10 then 3 else -9)

/-- The `getMonth()` (0-based) of `new Date(year, parseInt(month) - 1,
day)` with the string arguments of `formatInvoiceDate`, or `none` when
that date is invalid: a NaN component, or a time value outside the
±100000000-day JavaScript range.  Includes the two-digit-year rule
(0-99 maps to 1900-1999) and month/day rollover. -/
def jsDateMonthIndex (yearS monthS dayS : List Char) : Option Int :=
  match jsNumberInt yearS, parseIntJS monthS, jsNumberInt dayS with
  | some y, some m1, some d =>
    let mi := m1 - 1
    let y2 := if 0 ≤ y ∧ y ≤ 99 then y + 1900 else y
    let tm := y2 * 12 + mi
    let ny := Int.fdiv tm 12
    let nm := Int.emod tm 12
    let g := daysFromCivil ny (nm + 1) 1 + (d - 1)
    if g < -100000000 ∨ 100000000 < g then none
    else some (civilMonthFromDays g - 1)
  | _, _, _ => none

/-- The `months` array of `formatInvoiceDate`. -/
def monthNames : List String :=
  ["Jan", "Feb", "Mar", "Apr", "May", "Jun", "Jul", "Aug", "Sep", "Oct",
   "Nov", "Dec"]

/-- `formatInvoiceDate` from `utils/dateFormat.js`: empty input renders
N/A; an input that does not split on slash into exactly three parts, or
whose parts build an invalid JS date, is returned unchanged; otherwise the
day (zero-padded to two digits), the month name of the constructed date
and the original year string are joined with slashes. -/
def formatInvoiceDate (dateStr : String) : String :=
  if dateStr = "" then "N/A"
  else
    match splitOnSlash dateStr.data with
    | [day, month, year] =>
      match jsDateMonthIndex year month day with
      | none => dateStr
      | some mi =>
        String.mk (padStart2 day) ++ "/" ++ monthNames.getD mi.toNat "" ++
          "/" ++ String.mk year
    | _ => dateStr

/-- Claim C10: `formatInvoiceDate` is total (a total function here), maps
the empty string to N/A, returns its argument unchanged when the input
does not split on slash into exactly three parts or parses to an invalid
date, and otherwise renders day/monthName/year with the day zero-padded
to two digits. -/
theorem claim_C10_format_invoice_date (s : String) :
    (s = "" → formatInvoiceDate s = "N/A") ∧
    (s ≠ "" → (splitOnSlash s.data).length ≠ 3 → formatInvoiceDate s = s) ∧
    (∀ d m y, s ≠ "" → splitOnSlash s.data = [d, m, y] →
      jsDateMonthIndex y m d = none → formatInvoiceDate s = s) ∧
    (∀ d m y mi, s ≠ "" → splitOnSlash s.data = [d, m, y] →
      jsDateMonthIndex y m d = some mi →
      formatInvoiceDate s =
        String.mk (padStart2 d) ++ "/" ++ monthNames.getD mi.toNat "" ++
          "/" ++ String.mk y) := by
  refine ⟨fun he => ?_, fun hne hlen => ?_, fun d m y hne hsp hnone => ?_,
    fun d m y mi hne hsp hsome => ?_⟩
  · simp [formatInvoiceDate, he]
  · rw [formatInvoiceDate, if_neg hne]
    rcases hl : splitOnSlash s.data with _ | ⟨a, _ | ⟨b, _ | ⟨c, _ | ⟨e, t⟩⟩⟩⟩
    · rfl
    · rfl
    · rfl
    · exact absurd (by rw [hl]; rfl) hlen
    · rfl
  · rw [formatInvoiceDate, if_neg hne, hsp]
    simp only [hnone]
  · rw [formatInvoiceDate, if_neg hne, hsp]
    simp only [hsome]

/-- Witness for C10: the empty string renders N/A, "2024" is returned
unchanged (one part), "15/13/2024" (month 13 rolls over to January) and
"5/12/2024" render through the formatter. -/
theorem claim_C10_witness :
    formatInvoiceDate "" = "N/A" ∧
    formatInvoiceDate "2024" = "2024" ∧
    formatInvoiceDate "5/12/2024" = "05/Dec/2024" ∧
    formatInvoiceDate "15/13/2024" = "15/Jan/2024" ∧
    formatInvoiceDate "ab/12/2024" = "ab/12/2024" := by
  refine ⟨(claim_C10_format_invoice_date "").1 rfl, ?_, ?_, ?_, ?_⟩
  · exact (claim_C10_format_invoice_date "2024").2.1 (by decide) (by decide)
  · have h := (claim_C10_format_invoice_date "5/12/2024").2.2.2
      "5".data "12".data "2024".data 11 (by decide) (by decide) (by decide)
    rw [h]
    rfl
  · have h := (claim_C10_format_invoice_date "15/13/2024").2.2.2
      "15".data "13".data "2024".data 0 (by decide) (by decide) (by decide)
    rw [h]
    rfl
  · exact (claim_C10_format_invoice_date "ab/12/2024").2.2.1
      "ab".data "12".data "2024".data (by decide) (by decide) (by decide)
